import Mathlib

/-!
Verification of the Taskcluster rust client's request execution engine
(`src/clients/client-rust/src/client.rs`): URL composition, Hawk request
signing, and the retry/backoff loop.  The Rust code is shallowly embedded:
machine integers are `Nat` with explicit wrapping where overflow matters
(`retries` is a `u32`), fallible code returns `Except`/`Option`, the
network is an oracle `outcomes : Nat → Outcome` giving the result of each
physical attempt, and the clock/RNG draw made by hawk's `make_header` is
threaded as explicit `ts`/`nonce` arguments.
-/

namespace TcClient

/-! ### URL model (external `url` crate, as used by `reqwest`)

`reqwest::Url` is modelled as its parsed components.  Userinfo and
fragments are not used by this client and are not modelled.  `Url::join`
resolves a relative reference per RFC 3986: split off the reference's
query, merge the path with the base path (everything up to and including
the base's last `/`), and remove dot segments.  Percent-encoding of
path characters is not modelled (the theorems restrict paths to
characters the crate passes through verbatim). -/

structure Url where
  scheme : String
  host : Option String
  port : Option Nat
  path : String
  query : Option String
deriving Repr, DecidableEq

/-- Default ports of the schemes known to `Url::port_or_known_default`. -/
def defaultPort : String → Option Nat
  | "http" => some 80
  | "https" => some 443
  | "ws" => some 80
  | "wss" => some 443
  | "ftp" => some 21
  | _ => none

def Url.port_or_known_default (u : Url) : Option Nat :=
  match u.port with
  | some p => some p
  | none => defaultPort u.scheme

/-- Split a relative reference into its path part and its query part. -/
def splitQueryChars : List Char → List Char × Option (List Char)
  | [] => ([], none)
  | c :: rest =>
    if c = '?' then ([], some rest)
    else
      let r := splitQueryChars rest
      (c :: r.1, r.2)

/-- The base path up to and including its last `/` (RFC 3986 path merge). -/
def upToLastSlash (cs : List Char) : List Char :=
  ((cs.reverse).dropWhile (fun c => !(c == '/'))).reverse

/-- RFC 3986 `remove_dot_segments`, on a path already split at `/`.
(The RFC's special trailing-slash handling for a final dot segment is not
modelled; the theorems only use dot-free paths, where this is the
identity.) -/
def removeDotSegments (segs : List (List Char)) : List (List Char) :=
  segs.foldl
    (fun acc seg =>
      if seg == ['.'] then acc
      else if seg == ['.', '.'] then acc.dropLast
      else acc ++ [seg])
    []

/-- `Url::join` for a (possibly absolute-path) reference with no scheme,
authority or fragment, which is the only kind this client produces. -/
def Url.join (base : Url) (ref : String) : Url :=
  let pq := splitQueryChars ref.data
  let merged : List Char :=
    match pq.1 with
    | '/' :: rest => '/' :: rest
    | p => upToLastSlash base.path.data ++ p
  let path := List.intercalate ['/'] (removeDotSegments (merged.splitOn '/'))
  { base with path := String.mk path, query := pq.2.map (fun q => String.mk q) }

/-- One hex digit, upper case. -/
def hexUpper (n : Nat) : Char :=
  if n < 10 then Char.ofNat (48 + n) else Char.ofNat (55 + n)

/-- `application/x-www-form-urlencoded` byte encoding used by
`Url::query_pairs_mut`: alphanumerics and `*-._` kept, space becomes `+`,
everything else percent-encoded.  Characters model their (ASCII) bytes. -/
def formEncodeChar (c : Char) : List Char :=
  if c == ' ' then ['+']
  else if c.isAlphanum || c == '*' || c == '-' || c == '.' || c == '_' then [c]
  else ['%', hexUpper (c.toNat / 16), hexUpper (c.toNat % 16)]

def formUrlEncode (s : String) : String :=
  String.mk (s.data.map formEncodeChar).flatten

def serializeQueryPairs (q : List (String × String)) : String :=
  String.intercalate "&" (q.map (fun p => formUrlEncode p.1 ++ "=" ++ formUrlEncode p.2))

/-- `url.query_pairs_mut().extend_pairs(q)`: serialize the pairs, in
order, onto the end of the existing query string. -/
def Url.extend_pairs (u : Url) (q : List (String × String)) : Url :=
  let newQuery : String :=
    match u.query, q with
    | some old, [] => old
    | some old, _ =>
      if old == "" then serializeQueryPairs q
      else old ++ "&" ++ serializeQueryPairs q
    | none, _ => serializeQueryPairs q
  { u with query := some newQuery }

/-- Render a URL back to its string form (`Url::as_str`). -/
def Url.render (u : Url) : String :=
  u.scheme ++ "://" ++
  (match u.host with | some h => h | none => "") ++
  (match u.port with | some p => ":" ++ toString p | none => "") ++
  u.path ++
  (match u.query with | some q => "?" ++ q | none => "")

/-! ### JSON values (`serde_json::Value`) -/

inductive Value where
  | null
  | bool (b : Bool)
  | num (n : Int)
  | str (s : String)
  | arr (elems : List Value)
  | obj (fields : List (String × Value))
deriving Repr, Inhabited

mutual

/-- JSON text of a value (`serde_json::to_vec`; string escaping is not
modelled, no claim depends on the exact rendering). -/
def Value.render : Value → String
  | .null => "null"
  | .bool true => "true"
  | .bool false => "false"
  | .num n => toString n
  | .str s => "\"" ++ s ++ "\""
  | .arr xs => "[" ++ Value.renderList xs ++ "]"
  | .obj fs => "\x7b" ++ Value.renderFields fs ++ "\x7d"

def Value.renderList : List Value → String
  | [] => ""
  | [x] => Value.render x
  | x :: xs => Value.render x ++ "," ++ Value.renderList xs

def Value.renderFields : List (String × Value) → String
  | [] => ""
  | [f] => "\"" ++ f.1 ++ "\":" ++ Value.render f.2
  | f :: fs => "\"" ++ f.1 ++ "\":" ++ Value.render f.2 ++ "," ++ Value.renderFields fs

end

/-- The in-memory bytes `serde_json::to_vec` produces (ASCII bytes of the
rendered text). -/
def Value.toBytes (v : Value) : List Nat :=
  v.render.data.map Char.toNat

/-! ### Requests and bodies (`reqwest`) -/

/-- A `reqwest` request body: either in-memory bytes or a byte stream.
`RequestBuilder::json` always produces in-memory bytes. -/
inductive Body where
  | bytes (b : List Nat)
  | stream
deriving Repr, DecidableEq

/-- `Body::as_bytes`: `None` exactly when the body is a stream. -/
def Body.as_bytes : Body → Option (List Nat)
  | .bytes b => some b
  | .stream => none

structure Request where
  method : String
  url : Url
  headers : List (String × String)
  body : Option Body
deriving Repr, DecidableEq

/-- `Request::try_clone`: fails exactly when the body is a stream. -/
def Request.try_clone (r : Request) : Option Request :=
  match r.body with
  | some .stream => none
  | _ => some r

/-- Rust `str::starts_with` on a string prefix. -/
def starts_with (s pre : String) : Bool :=
  pre.data.isPrefixOf s.data

/-- `http::Method::from_str`: accepts a nonempty string of token
characters (the backtick and quote token characters are left out of the
model). -/
def isTokenChar (c : Char) : Bool :=
  c.isAlphanum || c == '!' || c == '#' || c == '$' || c == '%' || c == '&' ||
  c == '*' || c == '+' || c == '-' || c == '.' || c == '^' || c == '_' || c == '~'

def Method.from_str (s : String) : Option String :=
  if s.isEmpty then none
  else if s.data.all isTokenChar then some s
  else none

/-- `http::HeaderValue::from_str`: visible characters only (tab allowed,
control characters and DEL rejected; characters model bytes). -/
def HeaderValue.from_str (s : String) : Option String :=
  if s.data.all (fun c => c == '\t' || (32 ≤ c.toNat && c.toNat ≠ 127 && c.toNat < 256))
  then some s else none

/-- Look a header up by name. -/
def headerValue (r : Request) (k : String) : Option String :=
  (r.headers.find? (fun p => p.1 == k)).map (fun p => p.2)

/-- `HeaderMap::insert`: replace any existing value under the name. -/
def insertHeader (hs : List (String × String)) (k v : String) : List (String × String) :=
  hs.filter (fun p => p.1 != k) ++ [(k, v)]

/-! ### Hawk signing (external `hawk` crate)

The MAC and payload hash are opaque cryptographic functions of their
inputs; they are modelled as injective encodings of those inputs, which
is all the claims depend on (header presence, and reuse vs freshness
across attempts). -/

structure HawkKey where
  key : String
  alg : String
deriving Repr, DecidableEq

structure HawkCredentials where
  id : String
  key : HawkKey
deriving Repr, DecidableEq

/-- `hawk::PayloadHasher::hash`: a hash over the declared content type
and the exact body bytes. -/
def PayloadHasher.hash (content_type alg : String) (body : List Nat) : List Nat :=
  (content_type.data.map Char.toNat) ++ [0] ++ (alg.data.map Char.toNat) ++ [0] ++ body

structure HawkHeader where
  id : String
  ts : Nat
  nonce : String
  method : String
  host : String
  port : Nat
  path : String
  hash : Option (List Nat)
  key : String
deriving Repr, DecidableEq

def renderBytes (bs : List Nat) : String :=
  String.intercalate "." (bs.map toString)

/-- The MAC, modelled as an injective encoding of the signing context
and the secret key. -/
def hmacTag (key : String) (fields : List String) : String :=
  String.intercalate "|" (key :: fields)

/-- The textual parameters of a `Hawk` authorization header
(`hawk::Header`'s `Display`). -/
def HawkHeader.render (h : HawkHeader) : String :=
  "id=\"" ++ h.id ++ "\", ts=\"" ++ toString h.ts ++ "\", nonce=\"" ++ h.nonce ++ "\"" ++
  (match h.hash with
   | some bs => ", hash=\"" ++ renderBytes bs ++ "\""
   | none => "") ++
  ", mac=\"" ++
  hmacTag h.key
    [h.method, h.host, toString h.port, h.path, toString h.ts, h.nonce,
     (match h.hash with | some bs => renderBytes bs | none => "")] ++
  "\""

/-! ### Client configuration -/

/-- Taskcluster credentials (modelled from the spec: client id, access
token and optional authorized scopes; `credentials.rs` is not among the
sources). -/
structure Credentials where
  client_id : String
  access_token : String
  scopes : Option (List String)
deriving Repr, DecidableEq

/-- Configuration for a client's automatic retrying. -/
structure Retry where
  retries : Nat
  max_interval : Nat
  timeout : Nat
deriving Repr, DecidableEq

inductive RedirectPolicy where
  | none
  | limited (max : Nat)
deriving Repr, DecidableEq

/-- The part of the underlying `reqwest::Client` configuration this
engine sets: redirect policy and per-attempt timeout. -/
structure HttpClientConfig where
  redirect : RedirectPolicy
  timeout : Nat
deriving Repr, DecidableEq

structure Client where
  credentials : Option Credentials
  retry : Retry
  base_url : Url
  client : HttpClientConfig
deriving Repr

/-- `backoff::default::MAX_INTERVAL_MILLIS`. -/
def MAX_INTERVAL_MILLIS : Nat := 60000

/-- `Client::new`.  The root URL arrives already parsed (string parsing
of absolute URLs is outside the model); the constructor joins the
`/api/<service>/<version>/` suffix onto it and configures the transport
with redirects disabled and the per-attempt timeout. -/
def Client.new (root_url : Url) (service_name api_version : String)
    (credentials : Option Credentials) (retry : Option Retry) : Client :=
  let retry := retry.getD
    { retries := 5, max_interval := MAX_INTERVAL_MILLIS, timeout := 30000 }
  { credentials := credentials,
    retry := retry,
    base_url := root_url.join ("/api/" ++ service_name ++ "/" ++ api_version ++ "/"),
    client := { redirect := RedirectPolicy.none, timeout := retry.timeout } }

/-! ### Building and signing requests -/

inductive BuildError where
  | panicked (msg : String)
  | invalidMethod (method : String)
  | noHost (url : String)
  | unknownPort (scheme : String)
  | bodyIsStream
  | invalidHeaderValue (v : String)
deriving Repr, DecidableEq

/-- Lines 150-154 of `client.rs`: join the caller path onto the base URL
and append the query pairs. -/
def Client.composeUrl (c : Client) (path : String)
    (query : Option (List (String × String))) : Url :=
  let url := c.base_url.join path
  match query with
  | some q => url.extend_pairs q
  | none => url

/-- `Client::sign_request`: host, then port, then the optional payload
hash over the body bytes, then the header.  `ts`/`nonce` are the
clock/RNG draw `make_header` performs. -/
def Client.sign_request (c : Client) (creds : HawkCredentials) (req : Request)
    (ts : Nat) (nonce : String) : Except BuildError Request :=
  match req.url.host with
  | none => .error (.noHost req.url.render)
  | some host =>
    match req.url.port_or_known_default with
    | none => .error (.unknownPort c.base_url.scheme)
    | some port =>
      let hashRes : Except BuildError (Option (List Nat)) :=
        match req.body with
        | some b =>
          match b.as_bytes with
          | none => .error .bodyIsStream
          | some bs => .ok (some (PayloadHasher.hash "text/json" "sha256" bs))
        | none => .ok none
      match hashRes with
      | .error e => .error e
      | .ok payload_hash =>
        let header : HawkHeader :=
          { id := creds.id, ts := ts, nonce := nonce, method := req.method,
            host := host, port := port, path := req.url.path,
            hash := payload_hash, key := creds.key.key }
        match HeaderValue.from_str ("Hawk " ++ header.render) with
        | none => .error (.invalidHeaderValue ("Hawk " ++ header.render))
        | some token => .ok { req with headers := insertHeader req.headers "Authorization" token }

/-- `Client::build_request`: panic on a path starting with `/`, compose
the URL, parse the method, serialize the JSON body (setting the content
type), and sign when credentials are present.  (`hawk::Key::new` with
SHA-256 accepts any key and is modelled as total.) -/
def Client.build_request (c : Client) (method path : String)
    (query : Option (List (String × String))) (body : Option Value)
    (ts : Nat) (nonce : String) : Except BuildError Request :=
  if starts_with path "/" then
    .error (.panicked "path must not start with `/`")
  else
    let url := c.composeUrl path query
    match Method.from_str method with
    | none => .error (.invalidMethod method)
    | some meth =>
      let req : Request := { method := meth, url := url, headers := [], body := none }
      let req : Request :=
        match body with
        | some b =>
          { req with
            headers := req.headers ++ [("content-type", "application/json")],
            body := some (.bytes (Value.toBytes b)) }
        | none => req
      match c.credentials with
      | some cr =>
        c.sign_request
          { id := cr.client_id, key := { key := cr.access_token, alg := "sha256" } }
          req ts nonce
      | none => .ok req

/-! ### Exponential backoff (external `backoff` crate) -/

structure ExponentialBackoff where
  current_interval : Nat
  initial_interval : Nat
  multiplier_num : Nat
  multiplier_den : Nat
  max_interval : Nat
  max_elapsed_time : Option Nat
  elapsed : Nat
deriving Repr, DecidableEq

/-- Advance the generator: emit the current interval (the randomized
jitter around it is modelled as the midpoint) and grow it by the
multiplier, capped at `max_interval`. -/
def ExponentialBackoff.step (b : ExponentialBackoff) : Nat × ExponentialBackoff :=
  let grown := min (b.current_interval * b.multiplier_num / b.multiplier_den) b.max_interval
  (b.current_interval, { b with current_interval := grown })

/-- `Backoff::next_backoff`: `None` only once the elapsed time exceeds
`max_elapsed_time`; with `max_elapsed_time = None` it never gives up. -/
def ExponentialBackoff.next_backoff (b : ExponentialBackoff) :
    Option (Nat × ExponentialBackoff) :=
  match b.max_elapsed_time with
  | some limit => if limit < b.elapsed then none else some b.step
  | none => some b.step

/-- `ExponentialBackoff::default()` (500 ms initial interval, multiplier
1.5, 60 s interval cap, 15 min elapsed-time cap). -/
def ExponentialBackoff.default : ExponentialBackoff :=
  { current_interval := 500, initial_interval := 500,
    multiplier_num := 3, multiplier_den := 2,
    max_interval := MAX_INTERVAL_MILLIS,
    max_elapsed_time := some 900000,
    elapsed := 0 }

def ExponentialBackoff.reset (b : ExponentialBackoff) : ExponentialBackoff :=
  { b with current_interval := b.initial_interval, elapsed := 0 }

/-! ### The retry loop (`Client::request`) -/

/-- An HTTP response as the engine sees it. -/
structure Response where
  status : Nat
  body : String
deriving Repr, DecidableEq

/-- The result of one physical attempt on the wire: `Err(e)` from
`reqwest::Client::execute`, or a completed HTTP response.  With the
redirect policy set to `none`, redirect responses are delivered as-is. -/
inductive Outcome where
  | transportError (msg : String)
  | response (r : Response)
deriving Repr, DecidableEq

def StatusCode.is_server_error (status : Nat) : Bool :=
  500 ≤ status && status ≤ 599

inductive RequestError where
  | build (e : BuildError)
  | cloneFailed (url : String)
  | transport (msg : String)
  | status (code : Nat) (resp : Response)
  | fuelExhausted
deriving Repr, DecidableEq

/-- The match on `self.client.execute(req).await` in lines 105-123:
transport errors and 5xx responses are retried for, anything else is
returned to the caller (`resp.error_for_status()` preserves the 5xx
status in the error). -/
def classify (o : Outcome) : Except RequestError Response :=
  match o with
  | .transportError e => .error (.transport e)
  | .response r =>
    if StatusCode.is_server_error r.status then .error (.status r.status r)
    else .ok r

deriving instance DecidableEq for Except

/-- Everything observable about one call to `Client::request`: the wire
requests actually issued (one per physical attempt, in order), the
backoff sleeps performed, and the final result. -/
structure RunResult where
  sent : List Request
  sleeps : List Nat
  result : Except RequestError Response
deriving Repr, DecidableEq

/-- `retries -= 1` on a `u32`: wrapping subtraction (release builds;
debug builds abort on the same underflow). -/
def u32wrapSub1 (n : Nat) : Nat :=
  (n + 4294967295) % 4294967296

/-- The `loop` in `Client::request`, lines 99-137.  `fuel` is an upper
bound on the number of iterations, never reached from `LOOP_FUEL` (a
`u32` budget allows at most `2^32` iterations even after wrapping);
`retries` is the current `u32` budget; `sent`/`sleeps` accumulate the
attempts issued and sleeps performed so far. -/
def requestLoop (outcomes : Nat → Outcome) (req : Request) :
    Nat → Nat → ExponentialBackoff → List Request → List Nat → RunResult
  | 0, _, _, sent, sleeps => ⟨sent, sleeps, .error .fuelExhausted⟩
  | fuel + 1, retries, backoff, sent, sleeps =>
    match req.try_clone with
    | none => ⟨sent, sleeps, .error (.cloneFailed req.url.render)⟩
    | some cloned =>
      match classify (outcomes sent.length) with
      | .ok resp => ⟨sent ++ [cloned], sleeps, .ok resp⟩
      | .error retry_for =>
        let retries' := u32wrapSub1 retries
        if retries' ≤ 0 then ⟨sent ++ [cloned], sleeps, .error retry_for⟩
        else
          match backoff.next_backoff with
          | some db =>
            requestLoop outcomes req fuel retries' db.2 (sent ++ [cloned]) (sleeps ++ [db.1])
          | none => ⟨sent ++ [cloned], sleeps, .error retry_for⟩

def LOOP_FUEL : Nat := 4294967297

/-- The backoff generator as `Client::request` configures it before the
loop: defaults, then no elapsed-time ceiling (retries are counted
instead), the configured interval cap, and a reset. -/
def initialBackoff (max_interval : Nat) : ExponentialBackoff :=
  ({ ExponentialBackoff.default with max_elapsed_time := none, max_interval := max_interval }).reset

/-- `Client::request`: set up the backoff generator, build (and, with
credentials, sign) the request once, then run the retry loop.  The one
`ts`/`nonce` draw happens here because `build_request` is called once,
before the loop. -/
def Client.request (c : Client) (method path : String)
    (query : Option (List (String × String))) (body : Option Value)
    (ts : Nat) (nonce : String) (outcomes : Nat → Outcome) : RunResult :=
  let backoff := initialBackoff c.retry.max_interval
  match c.build_request method path query body ts nonce with
  | .error e => ⟨[], [], .error (.build e)⟩
  | .ok req => requestLoop outcomes req LOOP_FUEL c.retry.retries backoff [] []

/-! ### Statement helpers -/

/-- The outcomes the engine treats as retryable failures: transport
errors and 5xx responses. -/
def failsAttempt (o : Outcome) : Bool :=
  match o with
  | .transportError _ => true
  | .response r => StatusCode.is_server_error r.status

/-- The host/port configuration errors raised by `sign_request`. -/
def BuildError.isHostPortConfigError : BuildError → Bool
  | .noHost _ => true
  | .unknownPort _ => true
  | _ => false

/-- Characters `Url::join` passes into the path verbatim. -/
def validPathChar (c : Char) : Bool :=
  c.isAlphanum || c == '-' || c == '_' || c == '.' || c == '~' || c == '/' || c == '%'

/-- A valid relative path in the sense of the spec's URL-composition
property: does not start with `/`, contains no query or fragment
delimiter and no characters the crate would percent-encode, and has no
`.`/`..` segments. -/
def validRelPath (p : String) : Bool :=
  !(starts_with p "/") &&
  p.data.all validPathChar &&
  ((p.data.splitOn '/').all (fun s => !(s == ['.']) && !(s == ['.', '.'])))

/-- Base-URL invariants established by `Client::new`: no query, a path
ending in `/`, and no dot segments. -/
def goodBaseUrl (u : Url) : Bool :=
  u.query.isNone &&
  (match u.path.data.reverse with | '/' :: _ => true | _ => false) &&
  ((u.path.data.splitOn '/').all (fun s => !(s == ['.']) && !(s == ['.', '.'])))

/-- The URL-composition property exactly as the spec words it: the
composed URL equals Endpoint + P, with Q percent-encoded and appended as
the query string in input order. -/
def specComposedUrl (endpoint : Url) (p : String)
    (q : Option (List (String × String))) : String :=
  endpoint.render ++ p ++
  (match q with
   | some pairs => "?" ++ serializeQueryPairs pairs
   | none => "")

/-- The authorization header carried by the request `build_request`
produces (`none` when building fails or when no header was attached). -/
def builtAuthHeader (c : Client) (m p : String)
    (q : Option (List (String × String))) (b : Option Value)
    (ts : Nat) (n : String) : Option String :=
  match c.build_request m p q b ts n with
  | .ok req => headerValue req "Authorization"
  | .error _ => none

/-! ### General lemmas -/

theorem u32wrapSub1_succ (n : Nat) (h : n + 1 < 4294967296) : u32wrapSub1 (n + 1) = n := by
  unfold u32wrapSub1; omega

theorem u32wrapSub1_zero : u32wrapSub1 0 = 4294967295 := by
  unfold u32wrapSub1; omega

theorem try_clone_eq {r c : Request} (h : r.try_clone = some c) : c = r := by
  unfold Request.try_clone at h
  split at h
  · exact absurd h (by simp)
  · exact (Option.some.inj h).symm

theorem find?_insertHeader (hs : List (String × String)) (k v : String) :
    (insertHeader hs k v).find? (fun p => p.1 == k) = some (k, v) := by
  unfold insertHeader
  rw [List.find?_append]
  have h1 : (hs.filter (fun p => p.1 != k)).find? (fun p => p.1 == k) = none := by
    rw [List.find?_eq_none]
    intro x hx hcontra
    have h2 := (List.mem_filter.mp hx).2
    rw [beq_iff_eq] at hcontra
    rw [bne_iff_ne] at h2
    exact h2 hcontra
  rw [h1]
  simp [List.find?]

/-- The request `build_request` hands to the loop: its body is in-memory
(never a stream), and it carries a `Hawk` authorization header exactly
when the client has credentials. -/
theorem build_request_ok_shape {c : Client} {m p : String}
    {q : Option (List (String × String))} {b : Option Value} {ts : Nat} {n : String}
    {req : Request} (h : c.build_request m p q b ts n = .ok req) :
    (req.body = none ∨ ∃ bs, req.body = some (.bytes bs)) ∧
    (c.credentials = none → headerValue req "Authorization" = none) ∧
    (∀ cr, c.credentials = some cr →
      ∃ rest, headerValue req "Authorization" = some ("Hawk " ++ rest)) := by
  unfold Client.build_request at h
  split at h
  · exact absurd h (by simp)
  · split at h
    · exact absurd h (by simp)
    · cases hc : c.credentials with
      | none =>
        simp only [hc] at h
        cases b with
        | none =>
          cases Except.ok.inj h
          refine ⟨Or.inl rfl, fun _ => ?_, fun cr hcr => by simp at hcr⟩
          simp [headerValue, List.find?]
        | some v =>
          cases Except.ok.inj h
          refine ⟨Or.inr ⟨_, rfl⟩, fun _ => ?_, fun cr hcr => by simp at hcr⟩
          simp [headerValue, List.find?]
      | some cr0 =>
        simp only [hc] at h
        cases b with
        | none =>
          simp only [Client.sign_request, Body.as_bytes] at h
          split at h
          · exact absurd h (by simp)
          · split at h
            · exact absurd h (by simp)
            · split at h
              · exact absurd h (by simp)
              · rename_i token htok
                cases Except.ok.inj h
                unfold HeaderValue.from_str at htok
                split at htok
                · cases Option.some.inj htok
                  refine ⟨Or.inl rfl, ?_, ?_⟩
                  · intro hcn
                    exact Option.noConfusion hcn
                  · intro cr hcr
                    simp only [headerValue, find?_insertHeader, Option.map_some']
                    exact ⟨_, rfl⟩
                · exact absurd htok (by simp)
        | some v =>
          simp only [Client.sign_request, Body.as_bytes] at h
          split at h
          · exact absurd h (by simp)
          · split at h
            · exact absurd h (by simp)
            · split at h
              · exact absurd h (by simp)
              · rename_i token htok
                cases Except.ok.inj h
                unfold HeaderValue.from_str at htok
                split at htok
                · cases Option.some.inj htok
                  refine ⟨Or.inr ⟨_, rfl⟩, ?_, ?_⟩
                  · intro hcn
                    exact Option.noConfusion hcn
                  · intro cr hcr
                    simp only [headerValue, find?_insertHeader, Option.map_some']
                    exact ⟨_, rfl⟩
                · exact absurd htok (by simp)

theorem build_ok_try_clone {c : Client} {m p : String}
    {q : Option (List (String × String))} {b : Option Value} {ts : Nat} {n : String}
    {req : Request} (h : c.build_request m p q b ts n = .ok req) :
    req.try_clone = some req := by
  rcases (build_request_ok_shape h).1 with h1 | ⟨bs, h1⟩ <;>
    (unfold Request.try_clone; rw [h1])

/-- `build_request` can fail, but never through the body-is-a-stream
branch of `sign_request`. -/
theorem build_request_error_shape {c : Client} {m p : String}
    {q : Option (List (String × String))} {b : Option Value} {ts : Nat} {n : String}
    {e : BuildError} (h : c.build_request m p q b ts n = .error e) :
    e ≠ .bodyIsStream := by
  unfold Client.build_request at h
  split at h
  · cases Except.error.inj h; simp
  · split at h
    · cases Except.error.inj h; simp
    · cases hc : c.credentials with
      | none =>
        simp only [hc] at h
        cases b <;> exact absurd h (by simp)
      | some cr0 =>
        simp only [hc] at h
        cases b with
        | none =>
          simp only [Client.sign_request, Body.as_bytes] at h
          split at h
          · cases Except.error.inj h; simp
          · split at h
            · cases Except.error.inj h; simp
            · split at h
              · cases Except.error.inj h; simp
              · exact absurd h (by simp)
        | some v =>
          simp only [Client.sign_request, Body.as_bytes] at h
          split at h
          · cases Except.error.inj h; simp
          · split at h
            · cases Except.error.inj h; simp
            · split at h
              · cases Except.error.inj h; simp
              · exact absurd h (by simp)

/-- `classify` only ever signals transport or status errors. -/
theorem classify_no_build (o : Outcome) (e : BuildError) :
    classify o ≠ .error (.build e) := by
  cases o with
  | transportError m => simp [classify]
  | response r =>
    simp only [classify]
    split <;> simp

/-- The retry loop only produces transport, status, clone or fuel
errors — never a build error. -/
theorem requestLoop_result_no_build (o : Nat → Outcome) (req : Request) (e : BuildError) :
    ∀ fuel retries b sent sleeps,
      (requestLoop o req fuel retries b sent sleeps).result ≠ .error (.build e) := by
  intro fuel
  induction fuel with
  | zero => intro retries b sent sleeps; simp [requestLoop]
  | succ fuel ih =>
    intro retries b sent sleeps
    simp only [requestLoop]
    split
    · simp
    · split
      · simp
      · rename_i retry_for heq
        split
        · intro hh
          have hrf : retry_for = .build e := by simpa using hh
          rw [hrf] at heq
          exact classify_no_build _ _ heq
        · split
          · exact ih _ _ _ _
          · intro hh
            have hrf : retry_for = .build e := by simpa using hh
            rw [hrf] at heq
            exact classify_no_build _ _ heq

theorem classify_of_fails {o : Outcome} (h : failsAttempt o = true) :
    ∃ e, classify o = .error e := by
  cases o with
  | transportError m => exact ⟨_, rfl⟩
  | response r =>
    simp only [failsAttempt] at h
    refine ⟨.status r.status r, ?_⟩
    simp [classify, h]

/-- `Client::request` with a buildable request is the retry loop run from
the configured budget, a reset backoff generator with no elapsed-time
ceiling, and empty histories. -/
theorem request_eq_loop {c : Client} {m p : String}
    {q : Option (List (String × String))} {b : Option Value} {ts : Nat} {n : String}
    {req : Request} (o : Nat → Outcome)
    (hb : c.build_request m p q b ts n = .ok req) :
    Client.request c m p q b ts n o =
      requestLoop o req LOOP_FUEL c.retry.retries
        (initialBackoff c.retry.max_interval) [] [] := by
  unfold Client.request
  simp only [hb]

/-- The loop only ever appends to the list of issued requests. -/
theorem requestLoop_sent_mono (o : Nat → Outcome) (req : Request) :
    ∀ fuel retries b sent sleeps,
      sent.length ≤ (requestLoop o req fuel retries b sent sleeps).sent.length := by
  intro fuel
  induction fuel with
  | zero => intro retries b sent sleeps; simp [requestLoop]
  | succ fuel ih =>
    intro retries b sent sleeps
    simp only [requestLoop]
    split
    · simp
    · split
      · simp
      · split
        · simp
        · split
          · exact le_trans (by simp) (ih _ _ _ _)
          · simp

/-- The loop only ever appends to the list of sleeps. -/
theorem requestLoop_sleeps_mono (o : Nat → Outcome) (req : Request) :
    ∀ fuel retries b sent sleeps,
      sleeps.length ≤ (requestLoop o req fuel retries b sent sleeps).sleeps.length := by
  intro fuel
  induction fuel with
  | zero => intro retries b sent sleeps; simp [requestLoop]
  | succ fuel ih =>
    intro retries b sent sleeps
    simp only [requestLoop]
    split
    · simp
    · split
      · simp
      · split
        · simp
        · split
          · exact le_trans (by simp) (ih _ _ _ _)
          · simp

/-- With fuel left and a cloneable request, the loop always issues at
least one more physical attempt. -/
theorem requestLoop_sent_ge_one (o : Nat → Outcome) (req : Request)
    (fuel retries : Nat) (b : ExponentialBackoff) (sent : List Request) (sleeps : List Nat)
    (hc : req.try_clone = some req) :
    sent.length + 1 ≤ (requestLoop o req (fuel + 1) retries b sent sleeps).sent.length := by
  simp only [requestLoop, hc]
  split
  · simp
  · split
    · simp
    · split
      · exact le_trans (by simp) (requestLoop_sent_mono _ _ _ _ _ _ _)
      · simp

/-- One failing iteration of the loop: decrement the (wrapping) budget,
and when it has not hit zero, sleep for the next backoff interval and go
around again. -/
theorem requestLoop_step_fail (o : Nat → Outcome) (req : Request) (fuel retries : Nat)
    (b : ExponentialBackoff) (sent : List Request) (sleeps : List Nat)
    (hc : req.try_clone = some req) (e : RequestError)
    (hcl : classify (o sent.length) = .error e)
    (hnz : ¬ u32wrapSub1 retries ≤ 0)
    (hme : b.max_elapsed_time = none) :
    requestLoop o req (fuel + 1) retries b sent sleeps =
      requestLoop o req fuel (u32wrapSub1 retries) b.step.2
        (sent ++ [req]) (sleeps ++ [b.step.1]) := by
  simp only [requestLoop, hc, hcl]
  rw [if_neg hnz]
  simp only [ExponentialBackoff.next_backoff, hme]

/-- One successful iteration of the loop: a non-5xx response is returned
as-is, on the attempt that received it, with no further attempt and no
further sleep. -/
theorem requestLoop_step_ok (o : Nat → Outcome) (req : Request) (fuel retries : Nat)
    (b : ExponentialBackoff) (sent : List Request) (sleeps : List Nat)
    (hc : req.try_clone = some req) (r : Response)
    (hcl : classify (o sent.length) = .ok r) :
    requestLoop o req (fuel + 1) retries b sent sleeps = ⟨sent ++ [req], sleeps, .ok r⟩ := by
  simp only [requestLoop, hc, hcl]

/-- One failing iteration that exhausts the budget: the failure is
returned at once, with no backoff sleep. -/
theorem requestLoop_step_exhaust (o : Nat → Outcome) (req : Request) (fuel retries : Nat)
    (b : ExponentialBackoff) (sent : List Request) (sleeps : List Nat)
    (hc : req.try_clone = some req) (e : RequestError)
    (hcl : classify (o sent.length) = .error e)
    (hz : u32wrapSub1 retries ≤ 0) :
    requestLoop o req (fuel + 1) retries b sent sleeps = ⟨sent ++ [req], sleeps, .error e⟩ := by
  simp only [requestLoop, hc, hcl]
  rw [if_pos hz]

theorem composeUrl_host (c : Client) (p : String) (q : Option (List (String × String))) :
    (c.composeUrl p q).host = c.base_url.host := by
  cases q <;> rfl

theorem composeUrl_port (c : Client) (p : String) (q : Option (List (String × String))) :
    (c.composeUrl p q).port = c.base_url.port := by
  cases q <;> rfl

theorem composeUrl_scheme (c : Client) (p : String) (q : Option (List (String × String))) :
    (c.composeUrl p q).scheme = c.base_url.scheme := by
  cases q <;> rfl

/-! ### The claims -/

/-- Claim C5: a call to `Client::request` whose path begins with `/`
aborts at once by panicking, before composing the URL or performing any
network I/O: no wire request is issued, no sleep happens, and this is so
for every client, method, query and body (URL composition and method
parsing come after the check). -/
theorem c5_slash_path_panics (c : Client) (m p : String)
    (q : Option (List (String × String))) (b : Option Value) (ts : Nat) (n : String)
    (o : Nat → Outcome) (hp : starts_with p "/" = true) :
    Client.request c m p q b ts n o =
      ⟨[], [], .error (.build (.panicked "path must not start with `/`"))⟩ := by
  unfold Client.request Client.build_request
  simp [hp]

theorem c5_witness :
    starts_with "/ping" "/" = true ∧
    Client.request
        (Client.new ⟨"https", some "tc.example.com", none, "/", none⟩ "queue" "v1" none none)
        "GET" "/ping" none none 0 "n" (fun _ => .response ⟨200, ""⟩) =
      ⟨[], [], .error (.build (.panicked "path must not start with `/`"))⟩ :=
  ⟨by decide,
   c5_slash_path_panics
     (Client.new ⟨"https", some "tc.example.com", none, "/", none⟩ "queue" "v1" none none)
     "GET" "/ping" none none 0 "n" (fun _ => .response ⟨200, ""⟩) (by decide)⟩

/-- Claim C10: through the public `Client::request` interface, the
body-is-a-stream error branch of `sign_request` is unreachable: any body
handed to `request` is serialized to in-memory JSON bytes before signing,
so `as_bytes` always succeeds, and no call can ever surface that error. -/
theorem c10_stream_branch_unreachable (c : Client) (m p : String)
    (q : Option (List (String × String))) (b : Option Value) (ts : Nat) (n : String)
    (o : Nat → Outcome) :
    (Client.request c m p q b ts n o).result ≠ .error (.build .bodyIsStream) := by
  cases hbe : c.build_request m p q b ts n with
  | error e =>
    unfold Client.request
    simp only [hbe]
    intro hh
    have he : e = .bodyIsStream := by simpa using hh
    exact build_request_error_shape hbe he
  | ok req =>
    rw [request_eq_loop o hbe]
    exact requestLoop_result_no_build _ _ _ _ _ _ _ _

/-- Claim C9: with `retries = 1`, every call performs exactly one
physical attempt whatever its outcome, with no backoff sleep: the
post-decrement budget check returns the failure before any wait, and the
call's result is exactly the classification of the first outcome. -/
theorem c9_retries_one_single_attempt (c : Client) (m p : String)
    (q : Option (List (String × String))) (b : Option Value) (ts : Nat) (n : String)
    (o : Nat → Outcome)
    (hr : c.retry.retries = 1)
    (hb : (c.build_request m p q b ts n).isOk = true) :
    (Client.request c m p q b ts n o).sent.length = 1 ∧
    (Client.request c m p q b ts n o).sleeps = [] ∧
    (Client.request c m p q b ts n o).result = classify (o 0) := by
  cases hbe : c.build_request m p q b ts n with
  | error e => rw [hbe] at hb; simp [Except.isOk, Except.toBool] at hb
  | ok req =>
    have hclone := build_ok_try_clone hbe
    have hloop := request_eq_loop o hbe
    rw [hr] at hloop
    cases hcl : classify (o 0) with
    | ok r =>
      have hstep := requestLoop_step_ok o req 4294967296 1
        (initialBackoff c.retry.max_interval) [] [] hclone r (by simpa using hcl)
      have hfinal := hloop.trans hstep
      rw [hfinal]
      exact ⟨rfl, rfl, rfl⟩
    | error e =>
      have hstep := requestLoop_step_exhaust o req 4294967296 1
        (initialBackoff c.retry.max_interval) [] [] hclone e (by simpa using hcl) (by decide)
      have hfinal := hloop.trans hstep
      rw [hfinal]
      exact ⟨rfl, rfl, rfl⟩

theorem c9_witness :
    (Client.request
        (Client.new ⟨"https", some "tc.example.com", none, "/", none⟩ "queue" "v1" none
          (some { retries := 1, max_interval := 1000, timeout := 1000 }))
        "GET" "ping" none none 0 "n" (fun _ => .response ⟨500, "e"⟩)).sent.length = 1 ∧
    (Client.request
        (Client.new ⟨"https", some "tc.example.com", none, "/", none⟩ "queue" "v1" none
          (some { retries := 1, max_interval := 1000, timeout := 1000 }))
        "GET" "ping" none none 0 "n" (fun _ => .response ⟨500, "e"⟩)).sleeps = [] ∧
    (Client.request
        (Client.new ⟨"https", some "tc.example.com", none, "/", none⟩ "queue" "v1" none
          (some { retries := 1, max_interval := 1000, timeout := 1000 }))
        "GET" "ping" none none 0 "n" (fun _ => .response ⟨500, "e"⟩)).result =
      classify (.response ⟨500, "e"⟩) :=
  c9_retries_one_single_attempt
    (Client.new ⟨"https", some "tc.example.com", none, "/", none⟩ "queue" "v1" none
      (some { retries := 1, max_interval := 1000, timeout := 1000 }))
    "GET" "ping" none none 0 "n" (fun _ => .response ⟨500, "e"⟩) (by decide) (by decide)

/-- With `retries = 0` and a failing first attempt, `retries -= 1`
underflows the `u32` budget; under wrapping (release-build) semantics the
budget check misses zero, so the loop sleeps and issues at least one
further attempt. -/
theorem retries_zero_underflow_behavior (c : Client) (m p : String)
    (q : Option (List (String × String))) (b : Option Value) (ts : Nat) (n : String)
    (o : Nat → Outcome)
    (hr : c.retry.retries = 0)
    (hf : failsAttempt (o 0) = true)
    (hb : (c.build_request m p q b ts n).isOk = true) :
    2 ≤ (Client.request c m p q b ts n o).sent.length ∧
    (Client.request c m p q b ts n o).sleeps ≠ [] := by
  cases hbe : c.build_request m p q b ts n with
  | error e => rw [hbe] at hb; simp [Except.isOk, Except.toBool] at hb
  | ok req =>
    have hclone := build_ok_try_clone hbe
    have hloop := request_eq_loop o hbe
    rw [hr] at hloop
    obtain ⟨e, hcl⟩ := classify_of_fails hf
    have hstep := requestLoop_step_fail o req 4294967296 0
      (initialBackoff c.retry.max_interval) [] [] hclone e (by simpa using hcl)
      (by decide) rfl
    have hfinal := hloop.trans hstep
    rw [hfinal]
    constructor
    · have h2 := requestLoop_sent_ge_one o req 4294967295 (u32wrapSub1 0)
        ((initialBackoff c.retry.max_interval).step.2) ([] ++ [req])
        ([] ++ [(initialBackoff c.retry.max_interval).step.1]) hclone
      simpa using h2
    · have h3 := requestLoop_sleeps_mono o req 4294967296 (u32wrapSub1 0)
        ((initialBackoff c.retry.max_interval).step.2) ([] ++ [req])
        ([] ++ [(initialBackoff c.retry.max_interval).step.1])
      intro hnil
      rw [hnil] at h3
      simp at h3

/-- Claim C2 (code bug): a client configured with `retries = 0` whose
single attempt fails does not stop after one attempt with no sleep — the
`u32` decrement wraps, the loop sleeps and keeps going (a debug build
aborts on the same underflow). -/
theorem c2_retries_zero_underflow :
    2 ≤ (Client.request
          (Client.new ⟨"https", some "tc.example.com", none, "/", none⟩ "queue" "v1" none
            (some { retries := 0, max_interval := 1000, timeout := 1000 }))
          "GET" "ping" none none 0 "n" (fun _ => .response ⟨500, "err"⟩)).sent.length ∧
    (Client.request
          (Client.new ⟨"https", some "tc.example.com", none, "/", none⟩ "queue" "v1" none
            (some { retries := 0, max_interval := 1000, timeout := 1000 }))
          "GET" "ping" none none 0 "n" (fun _ => .response ⟨500, "err"⟩)).sleeps ≠ [] :=
  retries_zero_underflow_behavior
    (Client.new ⟨"https", some "tc.example.com", none, "/", none⟩ "queue" "v1" none
      (some { retries := 0, max_interval := 1000, timeout := 1000 }))
    "GET" "ping" none none 0 "n" (fun _ => .response ⟨500, "err"⟩)
    (by decide) (by decide) (by decide)

/-- Claim C8: a successfully built request carries an
`Authorization: Hawk <params>` header if and only if the client has
credentials configured when it is built; without credentials no
`Authorization` header is attached at all. -/
theorem c8_auth_header_iff_credentials (c : Client) (m p : String)
    (q : Option (List (String × String))) (b : Option Value) (ts : Nat) (n : String)
    (hb : (c.build_request m p q b ts n).isOk = true) :
    ((∃ rest, builtAuthHeader c m p q b ts n = some ("Hawk " ++ rest)) ↔
      c.credentials.isSome = true) ∧
    (c.credentials = none → builtAuthHeader c m p q b ts n = none) := by
  cases hbe : c.build_request m p q b ts n with
  | error e => rw [hbe] at hb; simp [Except.isOk, Except.toBool] at hb
  | ok req =>
    have hshape := build_request_ok_shape hbe
    have hauth : builtAuthHeader c m p q b ts n = headerValue req "Authorization" := by
      simp only [builtAuthHeader, hbe]
    constructor
    · constructor
      · rintro ⟨rest, hr⟩
        cases hc : c.credentials with
        | none =>
          rw [hauth, hshape.2.1 hc] at hr
          exact Option.noConfusion hr
        | some cr => rfl
      · intro hs
        cases hc : c.credentials with
        | none => rw [hc] at hs; exact Bool.noConfusion hs
        | some cr =>
          obtain ⟨rest, hr⟩ := hshape.2.2 cr hc
          exact ⟨rest, hauth.trans hr⟩
    · intro hc
      rw [hauth]
      exact hshape.2.1 hc

theorem c8_witness :
    ((∃ rest,
        builtAuthHeader
          (Client.new ⟨"https", some "tc.example.com", none, "/", none⟩ "queue" "v1"
            (some ⟨"clientId", "accessToken", none⟩) none)
          "GET" "ping" none none 3 "nx" = some ("Hawk " ++ rest)) ↔
      (Client.new ⟨"https", some "tc.example.com", none, "/", none⟩ "queue" "v1"
        (some ⟨"clientId", "accessToken", none⟩) none).credentials.isSome = true) ∧
    ((Client.new ⟨"https", some "tc.example.com", none, "/", none⟩ "queue" "v1"
        (some ⟨"clientId", "accessToken", none⟩) none).credentials = none →
      builtAuthHeader
        (Client.new ⟨"https", some "tc.example.com", none, "/", none⟩ "queue" "v1"
          (some ⟨"clientId", "accessToken", none⟩) none)
        "GET" "ping" none none 3 "nx" = none) :=
  c8_auth_header_iff_credentials
    (Client.new ⟨"https", some "tc.example.com", none, "/", none⟩ "queue" "v1"
      (some ⟨"clientId", "accessToken", none⟩) none)
    "GET" "ping" none none 3 "nx" (by decide)

/-- `build_request` with credentials fails with a host/port configuration
error whenever the base URL has no determinable host or no resolvable
port. -/
theorem build_request_config_error (c : Client) (cr : Credentials) (m p : String)
    (q : Option (List (String × String))) (b : Option Value) (ts : Nat) (n : String)
    (hc : c.credentials = some cr)
    (hp : starts_with p "/" = false)
    (hm : (Method.from_str m).isSome = true)
    (hh : c.base_url.host = none ∨
          (c.base_url.port = none ∧ defaultPort c.base_url.scheme = none)) :
    ∃ e, c.build_request m p q b ts n = .error e ∧ e.isHostPortConfigError = true := by
  unfold Client.build_request
  rw [if_neg (by simp [hp])]
  cases hmm : Method.from_str m with
  | none => rw [hmm] at hm; exact Bool.noConfusion hm
  | some mm =>
    simp only [hmm, hc]
    rcases hh with hl | ⟨hport, hdef⟩
    · cases b <;>
        simp [Client.sign_request, composeUrl_host, hl, BuildError.isHostPortConfigError]
    · cases hhost : c.base_url.host with
      | none =>
        cases b <;>
          simp [Client.sign_request, composeUrl_host, hhost, BuildError.isHostPortConfigError]
      | some hst =>
        cases b <;>
          simp [Client.sign_request, composeUrl_host, hhost,
            Url.port_or_known_default, composeUrl_port, hport, composeUrl_scheme, hdef,
            BuildError.isHostPortConfigError]

/-- Claim C6: with credentials configured, a call whose URL has no
determinable host, or whose port cannot be resolved from the URL or the
protocol default, fails before any network I/O with a configuration
error: nothing is sent, nothing sleeps, and the error is a host/port
configuration error (never retried). -/
theorem c6_host_port_config_error (c : Client) (cr : Credentials) (m p : String)
    (q : Option (List (String × String))) (b : Option Value) (ts : Nat) (n : String)
    (o : Nat → Outcome)
    (hc : c.credentials = some cr)
    (hp : starts_with p "/" = false)
    (hm : (Method.from_str m).isSome = true)
    (hh : c.base_url.host = none ∨
          (c.base_url.port = none ∧ defaultPort c.base_url.scheme = none)) :
    (Client.request c m p q b ts n o).sent = [] ∧
    (Client.request c m p q b ts n o).sleeps = [] ∧
    ∃ e, (Client.request c m p q b ts n o).result = .error (.build e) ∧
      e.isHostPortConfigError = true := by
  obtain ⟨e, he, hcfg⟩ := build_request_config_error c cr m p q b ts n hc hp hm hh
  unfold Client.request
  simp only [he]
  exact ⟨by trivial, by trivial, e, by trivial, hcfg⟩

theorem c6_witness :
    (Client.request
        (Client.new ⟨"file", none, none, "/", none⟩ "queue" "v1"
          (some ⟨"clientId", "accessToken", none⟩) none)
        "GET" "ping" none none 0 "n" (fun _ => .response ⟨200, ""⟩)).sent = [] ∧
    (Client.request
        (Client.new ⟨"file", none, none, "/", none⟩ "queue" "v1"
          (some ⟨"clientId", "accessToken", none⟩) none)
        "GET" "ping" none none 0 "n" (fun _ => .response ⟨200, ""⟩)).sleeps = [] ∧
    ∃ e,
      (Client.request
          (Client.new ⟨"file", none, none, "/", none⟩ "queue" "v1"
            (some ⟨"clientId", "accessToken", none⟩) none)
          "GET" "ping" none none 0 "n" (fun _ => .response ⟨200, ""⟩)).result =
        .error (.build e) ∧
      e.isHostPortConfigError = true :=
  c6_host_port_config_error
    (Client.new ⟨"file", none, none, "/", none⟩ "queue" "v1"
      (some ⟨"clientId", "accessToken", none⟩) none)
    ⟨"clientId", "accessToken", none⟩ "GET" "ping" none none 0 "n"
    (fun _ => .response ⟨200, ""⟩) (by decide) (by decide) (by decide)
    (Or.inl (by decide))

/-- Every wire request the loop issues is the single template it was
given (each attempt is a clone of the request built before the loop). -/
theorem requestLoop_sent_mem (o : Nat → Outcome) (req : Request)
    (hc : req.try_clone = some req) :
    ∀ fuel retries b sent sleeps x,
      x ∈ (requestLoop o req fuel retries b sent sleeps).sent → x ∈ sent ∨ x = req := by
  intro fuel
  induction fuel with
  | zero =>
    intro retries b sent sleeps x hx
    simp only [requestLoop] at hx
    exact Or.inl hx
  | succ fuel ih =>
    intro retries b sent sleeps x hx
    simp only [requestLoop, hc] at hx
    split at hx
    · rcases List.mem_append.mp hx with h | h
      · exact Or.inl h
      · exact Or.inr (List.mem_singleton.mp h)
    · split at hx
      · rcases List.mem_append.mp hx with h | h
        · exact Or.inl h
        · exact Or.inr (List.mem_singleton.mp h)
      · split at hx
        · rcases ih _ _ _ _ _ hx with h | h
          · rcases List.mem_append.mp h with h2 | h2
            · exact Or.inl h2
            · exact Or.inr (List.mem_singleton.mp h2)
          · exact Or.inr h
        · rcases List.mem_append.mp hx with h | h
          · exact Or.inl h
          · exact Or.inr (List.mem_singleton.mp h)

/-- Claim C1 (counterexample): a concrete credentialed call that makes
three physical attempts, all of which carry an authorization header, and
whose header values are not distinct — the same `Hawk` header is reused
across the retry attempts of one call. -/
theorem c1_header_reuse_counterexample :
    ((Client.request
        (Client.new ⟨"http", some "h.example", some 8080, "/", none⟩ "queue" "v1"
          (some ⟨"clientId", "accessToken", none⟩)
          (some { retries := 3, max_interval := 1, timeout := 1000 }))
        "GET" "ping" none none 7 "n" (fun _ => .response ⟨500, ""⟩)).sent.map
      (fun r => headerValue r "Authorization")).length = 3 ∧
    ((Client.request
        (Client.new ⟨"http", some "h.example", some 8080, "/", none⟩ "queue" "v1"
          (some ⟨"clientId", "accessToken", none⟩)
          (some { retries := 3, max_interval := 1, timeout := 1000 }))
        "GET" "ping" none none 7 "n" (fun _ => .response ⟨500, ""⟩)).sent.map
      (fun r => headerValue r "Authorization")).all (fun h => h.isSome) = true ∧
    ¬ ((Client.request
        (Client.new ⟨"http", some "h.example", some 8080, "/", none⟩ "queue" "v1"
          (some ⟨"clientId", "accessToken", none⟩)
          (some { retries := 3, max_interval := 1, timeout := 1000 }))
        "GET" "ping" none none 7 "n" (fun _ => .response ⟨500, ""⟩)).sent.map
      (fun r => headerValue r "Authorization")).Nodup :=
  ⟨by decide, by decide, by decide⟩

/-- Claim C1 (amended): with credentials configured, the `Hawk`
authorization header is computed once per call — in `build_request`,
before the first attempt, from the call's single timestamp/nonce draw —
and every physical attempt of that call re-sends the identical signed
request: each sent request carries a `Hawk` authorization header, and all
sent requests of one call have exactly the same headers. -/
theorem c1_header_computed_once (c : Client) (cr : Credentials) (m p : String)
    (q : Option (List (String × String))) (b : Option Value) (ts : Nat) (n : String)
    (o : Nat → Outcome)
    (hc : c.credentials = some cr) :
    ∀ r ∈ (Client.request c m p q b ts n o).sent,
      (∃ rest, headerValue r "Authorization" = some ("Hawk " ++ rest)) ∧
      ∀ r2 ∈ (Client.request c m p q b ts n o).sent, r.headers = r2.headers := by
  cases hbe : c.build_request m p q b ts n with
  | error e =>
    have hempty : Client.request c m p q b ts n o = ⟨[], [], .error (.build e)⟩ := by
      unfold Client.request
      simp only [hbe]
    intro r hr
    rw [hempty] at hr
    exact absurd hr (by simp)
  | ok req =>
    have hclone := build_ok_try_clone hbe
    have hauth := (build_request_ok_shape hbe).2.2 cr hc
    have hloop := request_eq_loop o hbe
    intro r hr
    rw [hloop] at hr
    have hrq : r = req := by
      rcases requestLoop_sent_mem o req hclone _ _ _ _ _ r hr with h | h
      · exact absurd h (by simp)
      · exact h
    subst hrq
    refine ⟨hauth, ?_⟩
    intro r2 hr2
    rw [hloop] at hr2
    have hrq2 : r2 = r := by
      rcases requestLoop_sent_mem o r hclone _ _ _ _ _ r2 hr2 with h | h
      · exact absurd h (by simp)
      · exact h
    rw [hrq2]

theorem c1_witness :
    2 ≤ (Client.request
        (Client.new ⟨"http", some "h.example", some 8080, "/", none⟩ "queue" "v1"
          (some ⟨"idW", "tokenW", none⟩)
          (some { retries := 2, max_interval := 1, timeout := 1000 }))
        "POST" "task/tt/cancel" none none 9 "nw"
        (fun _ => .transportError "refused")).sent.length ∧
    (∀ r ∈ (Client.request
        (Client.new ⟨"http", some "h.example", some 8080, "/", none⟩ "queue" "v1"
          (some ⟨"idW", "tokenW", none⟩)
          (some { retries := 2, max_interval := 1, timeout := 1000 }))
        "POST" "task/tt/cancel" none none 9 "nw"
        (fun _ => .transportError "refused")).sent,
      (∃ rest, headerValue r "Authorization" = some ("Hawk " ++ rest)) ∧
      ∀ r2 ∈ (Client.request
          (Client.new ⟨"http", some "h.example", some 8080, "/", none⟩ "queue" "v1"
            (some ⟨"idW", "tokenW", none⟩)
            (some { retries := 2, max_interval := 1, timeout := 1000 }))
          "POST" "task/tt/cancel" none none 9 "nw"
          (fun _ => .transportError "refused")).sent, r.headers = r2.headers) :=
  ⟨by decide,
   c1_header_computed_once
     (Client.new ⟨"http", some "h.example", some 8080, "/", none⟩ "queue" "v1"
       (some ⟨"idW", "tokenW", none⟩)
       (some { retries := 2, max_interval := 1, timeout := 1000 }))
     ⟨"idW", "tokenW", none⟩ "POST" "task/tt/cancel" none none 9 "nw"
     (fun _ => .transportError "refused") (by decide)⟩

/-- Against a server that answers every attempt with a 5xx status, a
remaining budget of `R ≥ 1` makes the loop issue exactly `R` further
attempts and fail with an error carrying the status of the last
response. -/
theorem requestLoop_all_5xx (resps : Nat → Response)
    (hsrv : ∀ i, StatusCode.is_server_error (resps i).status = true)
    (req : Request) (hc : req.try_clone = some req) :
    ∀ R, 1 ≤ R → R < 4294967296 →
    ∀ fuel b sent sleeps, R ≤ fuel → b.max_elapsed_time = none →
      (requestLoop (fun i => .response (resps i)) req fuel R b sent sleeps).sent.length =
        sent.length + R ∧
      (requestLoop (fun i => .response (resps i)) req fuel R b sent sleeps).result =
        .error (.status (resps (sent.length + R - 1)).status
                        (resps (sent.length + R - 1))) := by
  intro R
  induction R with
  | zero => intro h1; omega
  | succ Rp ih =>
    intro h1 hlt fuel b sent sleeps hfuel hme
    cases fuel with
    | zero => omega
    | succ f =>
      have hcl : classify ((fun i => Outcome.response (resps i)) sent.length) =
          .error (.status (resps sent.length).status (resps sent.length)) := by
        simp [classify, hsrv sent.length]
      by_cases hR : Rp = 0
      · subst hR
        rw [requestLoop_step_exhaust _ req f 1 b sent sleeps hc _ hcl (by decide)]
        exact ⟨by simp, by simp⟩
      · have hnz : ¬ u32wrapSub1 (Rp + 1) ≤ 0 := by
          rw [u32wrapSub1_succ Rp hlt]; omega
        rw [requestLoop_step_fail _ req f (Rp + 1) b sent sleeps hc _ hcl hnz hme]
        rw [u32wrapSub1_succ Rp hlt]
        have hme2 : (b.step.2).max_elapsed_time = none := by
          simp [ExponentialBackoff.step, hme]
        have ihx := ih (by omega) (by omega) f b.step.2 (sent ++ [req])
          (sleeps ++ [b.step.1]) (by omega) hme2
        have hidx : (sent ++ [req]).length + Rp - 1 = sent.length + (Rp + 1) - 1 := by
          simp only [List.length_append, List.length_singleton]
          omega
        constructor
        · rw [ihx.1]
          simp only [List.length_append, List.length_singleton]
          omega
        · rw [ihx.2, hidx]

/-- Claim C3 (counterexample): the claim quantifies over every retry
count N, but at N = 0 and an always-5xx server the call does not perform
exactly 0 physical attempts — the first attempt is always issued (and
the u32 underflow then keeps the loop going). -/
theorem c3_retries_zero_counterexample :
    (Client.request
        (Client.new ⟨"http", some "h.example", none, "/", none⟩ "queue" "v1" none
          (some { retries := 0, max_interval := 50, timeout := 1000 }))
        "GET" "status" none none 1 "nz"
        (fun _ => .response ⟨503, "unavailable"⟩)).sent.length ≠ 0 := by
  have h2 := (retries_zero_underflow_behavior
    (Client.new ⟨"http", some "h.example", none, "/", none⟩ "queue" "v1" none
      (some { retries := 0, max_interval := 50, timeout := 1000 }))
    "GET" "status" none none 1 "nz" (fun _ => .response ⟨503, "unavailable"⟩)
    (by decide) (by decide) (by decide)).1
  omega

/-- Claim C3 (amended): for every retry count N with 1 ≤ N (a u32, so
N < 2^32) and a server whose response to every attempt is 5xx,
`Client::request` performs exactly N physical attempts and returns an
error carrying the status (and response) of the N-th — last — 5xx
response received. -/
theorem c3_always_5xx_attempts (c : Client) (m p : String)
    (q : Option (List (String × String))) (b : Option Value) (ts : Nat) (n : String)
    (resps : Nat → Response)
    (hsrv : ∀ i, StatusCode.is_server_error (resps i).status = true)
    (hN1 : 1 ≤ c.retry.retries) (hNlt : c.retry.retries < 4294967296)
    (hb : (c.build_request m p q b ts n).isOk = true) :
    (Client.request c m p q b ts n (fun i => .response (resps i))).sent.length =
      c.retry.retries ∧
    (Client.request c m p q b ts n (fun i => .response (resps i))).result =
      .error (.status (resps (c.retry.retries - 1)).status
                      (resps (c.retry.retries - 1))) := by
  cases hbe : c.build_request m p q b ts n with
  | error e => rw [hbe] at hb; simp [Except.isOk, Except.toBool] at hb
  | ok req =>
    have hclone := build_ok_try_clone hbe
    have hloop := request_eq_loop (fun i => Outcome.response (resps i)) hbe
    have hfuel : c.retry.retries ≤ LOOP_FUEL := by
      unfold LOOP_FUEL; omega
    have hall := requestLoop_all_5xx resps hsrv req hclone c.retry.retries hN1 hNlt
      LOOP_FUEL (initialBackoff c.retry.max_interval) [] [] hfuel rfl
    rw [hloop]
    constructor
    · rw [hall.1]; simp
    · rw [hall.2]; simp

theorem c3_witness :
    (Client.request
        (Client.new ⟨"http", some "h.example", none, "/", none⟩ "queue" "v1" none
          (some { retries := 6, max_interval := 1, timeout := 1000 }))
        "GET" "test" none none 2 "nc"
        (fun _ => .response ⟨500, "boom"⟩)).sent.length = 6 ∧
    (Client.request
        (Client.new ⟨"http", some "h.example", none, "/", none⟩ "queue" "v1" none
          (some { retries := 6, max_interval := 1, timeout := 1000 }))
        "GET" "test" none none 2 "nc"
        (fun _ => .response ⟨500, "boom"⟩)).result =
      .error (.status 500 ⟨500, "boom"⟩) :=
  c3_always_5xx_attempts
    (Client.new ⟨"http", some "h.example", none, "/", none⟩ "queue" "v1" none
      (some { retries := 6, max_interval := 1, timeout := 1000 }))
    "GET" "test" none none 2 "nc" (fun _ => ⟨500, "boom"⟩)
    (fun _ => rfl) (by decide) (by decide) (by decide)

/-- If the next `k` outcomes are retryable failures the budget survives,
and outcome `k` is a non-5xx response, the loop returns that response as
a success after exactly `k + 1` further attempts and `k` further
sleeps. -/
theorem requestLoop_prefix_fail_then_ok (o : Nat → Outcome) (req : Request)
    (hc : req.try_clone = some req) (r : Response)
    (hr : StatusCode.is_server_error r.status = false) :
    ∀ k R fuel b sent sleeps,
      (∀ j, j < k → failsAttempt (o (sent.length + j)) = true) →
      o (sent.length + k) = .response r →
      (k = 0 ∨ k < R) → R < 4294967296 →
      b.max_elapsed_time = none →
      k + 1 ≤ fuel →
      (requestLoop o req fuel R b sent sleeps).result = .ok r ∧
      (requestLoop o req fuel R b sent sleeps).sent.length = sent.length + (k + 1) ∧
      (requestLoop o req fuel R b sent sleeps).sleeps.length = sleeps.length + k := by
  intro k
  induction k with
  | zero =>
    intro R fuel b sent sleeps hpre hk hbud hRlt hme hfuel
    cases fuel with
    | zero => omega
    | succ f =>
      have hk0 : o sent.length = .response r := by simpa using hk
      have hcl : classify (o sent.length) = .ok r := by
        simp [classify, hk0, hr]
      rw [requestLoop_step_ok o req f R b sent sleeps hc r hcl]
      exact ⟨rfl, by simp, by simp⟩
  | succ kp ih =>
    intro R fuel b sent sleeps hpre hk hbud hRlt hme hfuel
    rcases hbud with h0 | hlt
    · exact absurd h0 (by omega)
    · cases fuel with
      | zero => omega
      | succ f =>
        have hf0 : failsAttempt (o sent.length) = true := by
          have := hpre 0 (by omega)
          simpa using this
        obtain ⟨e, hcl⟩ := classify_of_fails hf0
        obtain ⟨Rp, rfl⟩ : ∃ Rp, R = Rp + 1 := ⟨R - 1, by omega⟩
        have hnz : ¬ u32wrapSub1 (Rp + 1) ≤ 0 := by
          rw [u32wrapSub1_succ Rp (by omega)]; omega
        rw [requestLoop_step_fail o req f (Rp + 1) b sent sleeps hc e hcl hnz hme]
        rw [u32wrapSub1_succ Rp (by omega)]
        have hlen : (sent ++ [req]).length = sent.length + 1 := by simp
        have hme2 : (b.step.2).max_elapsed_time = none := by
          simp [ExponentialBackoff.step, hme]
        have ihx := ih Rp f b.step.2 (sent ++ [req]) (sleeps ++ [b.step.1])
          (by
            intro j hj
            rw [hlen, show sent.length + 1 + j = sent.length + (j + 1) by omega]
            exact hpre (j + 1) (by omega))
          (by
            rw [hlen, show sent.length + 1 + kp = sent.length + (kp + 1) by omega]
            exact hk)
          (by omega) (by omega) hme2 (by omega)
        refine ⟨ihx.1, ?_, ?_⟩
        · rw [ihx.2.1, hlen]; omega
        · rw [ihx.2.2]; simp only [List.length_append, List.length_singleton]; omega

/-- Claim C4: an HTTP response whose status is not a server error (1xx,
2xx, 3xx or 4xx) is returned to the caller as a successful result on the
attempt that received it — here the first non-failing attempt `k`,
within budget: exactly `k + 1` physical attempts happen, `k` backoff
sleeps, the response (redirects and 4xx included) is handed back as-is,
every wire request of the call is the one template for the composed URL
(none ever goes to a redirect's Location target), and `Client::new`
always disables redirect following. -/
theorem c4_non_5xx_success (c : Client) (m p : String)
    (q : Option (List (String × String))) (b : Option Value) (ts : Nat) (n : String)
    (o : Nat → Outcome) (k : Nat) (r : Response)
    (hpre : ∀ j, j < k → failsAttempt (o j) = true)
    (hk : o k = .response r)
    (hr : StatusCode.is_server_error r.status = false)
    (hbud : k = 0 ∨ k < c.retry.retries)
    (hlt : c.retry.retries < 4294967296)
    (hb : (c.build_request m p q b ts n).isOk = true) :
    (Client.request c m p q b ts n o).result = .ok r ∧
    (Client.request c m p q b ts n o).sent.length = k + 1 ∧
    (Client.request c m p q b ts n o).sleeps.length = k ∧
    (∀ x ∈ (Client.request c m p q b ts n o).sent,
      ∀ y ∈ (Client.request c m p q b ts n o).sent, x = y) ∧
    (∀ ru sn av creds rt, (Client.new ru sn av creds rt).client.redirect =
      RedirectPolicy.none) := by
  cases hbe : c.build_request m p q b ts n with
  | error e => rw [hbe] at hb; simp [Except.isOk, Except.toBool] at hb
  | ok req =>
    have hclone := build_ok_try_clone hbe
    have hloop := request_eq_loop o hbe
    have hfuel : k + 1 ≤ LOOP_FUEL := by
      unfold LOOP_FUEL; omega
    have hmain := requestLoop_prefix_fail_then_ok o req hclone r hr k c.retry.retries
      LOOP_FUEL (initialBackoff c.retry.max_interval) [] []
      (by intro j hj; simpa using hpre j hj)
      (by simpa using hk) hbud hlt rfl hfuel
    rw [hloop]
    refine ⟨hmain.1, by rw [hmain.2.1]; simp, by rw [hmain.2.2]; simp, ?_, ?_⟩
    · intro x hx y hy
      have hx2 := requestLoop_sent_mem o req hclone _ _ _ _ _ x hx
      have hy2 := requestLoop_sent_mem o req hclone _ _ _ _ _ y hy
      rcases hx2 with h | h
      · exact absurd h (by simp)
      · rcases hy2 with h2 | h2
        · exact absurd h2 (by simp)
        · rw [h, h2]
    · intro ru sn av creds rt
      rfl

theorem c4_witness :
    (Client.request
        (Client.new ⟨"http", some "h.example", none, "/", none⟩ "queue" "v1" none
          (some { retries := 5, max_interval := 1, timeout := 1000 }))
        "GET" "test" none none 0 "nr"
        (fun i => if i = 0 then .transportError "refused"
                  else .response ⟨303, "see-other"⟩)).result = .ok ⟨303, "see-other"⟩ ∧
    (Client.request
        (Client.new ⟨"http", some "h.example", none, "/", none⟩ "queue" "v1" none
          (some { retries := 5, max_interval := 1, timeout := 1000 }))
        "GET" "test" none none 0 "nr"
        (fun i => if i = 0 then .transportError "refused"
                  else .response ⟨303, "see-other"⟩)).sent.length = 1 + 1 ∧
    (Client.request
        (Client.new ⟨"http", some "h.example", none, "/", none⟩ "queue" "v1" none
          (some { retries := 5, max_interval := 1, timeout := 1000 }))
        "GET" "test" none none 0 "nr"
        (fun i => if i = 0 then .transportError "refused"
                  else .response ⟨303, "see-other"⟩)).sleeps.length = 1 ∧
    (∀ x ∈ (Client.request
        (Client.new ⟨"http", some "h.example", none, "/", none⟩ "queue" "v1" none
          (some { retries := 5, max_interval := 1, timeout := 1000 }))
        "GET" "test" none none 0 "nr"
        (fun i => if i = 0 then .transportError "refused"
                  else .response ⟨303, "see-other"⟩)).sent,
      ∀ y ∈ (Client.request
        (Client.new ⟨"http", some "h.example", none, "/", none⟩ "queue" "v1" none
          (some { retries := 5, max_interval := 1, timeout := 1000 }))
        "GET" "test" none none 0 "nr"
        (fun i => if i = 0 then .transportError "refused"
                  else .response ⟨303, "see-other"⟩)).sent, x = y) ∧
    (∀ ru sn av creds rt, (Client.new ru sn av creds rt).client.redirect =
      RedirectPolicy.none) :=
  c4_non_5xx_success
    (Client.new ⟨"http", some "h.example", none, "/", none⟩ "queue" "v1" none
      (some { retries := 5, max_interval := 1, timeout := 1000 }))
    "GET" "test" none none 0 "nr"
    (fun i => if i = 0 then .transportError "refused" else .response ⟨303, "see-other"⟩)
    1 ⟨303, "see-other"⟩ (by decide) (by decide) (by decide)
    (Or.inr (by decide)) (by decide) (by decide)

/-! ### URL composition lemmas (Claim C7) -/

theorem splitQueryChars_of_no_question (cs : List Char) (h : '?' ∉ cs) :
    splitQueryChars cs = (cs, none) := by
  induction cs with
  | nil => rfl
  | cons c cs ih =>
    have hc : c ≠ '?' := fun hh => h (hh ▸ List.mem_cons_self c cs)
    have hcs : '?' ∉ cs := fun hh => h (List.mem_cons_of_mem c hh)
    unfold splitQueryChars
    rw [if_neg hc, ih hcs]

theorem modifyHead_append_left {α : Type _} (f : α → α) (l l2 : List α) (h : l ≠ []) :
    (l ++ l2).modifyHead f = l.modifyHead f ++ l2 := by
  cases l with
  | nil => exact absurd rfl h
  | cons a t => simp

theorem splitOnP_append_sep (p : Char → Bool) (sep : Char) (hsep : p sep = true) :
    ∀ as bs : List Char, (as ++ sep :: bs).splitOnP p = as.splitOnP p ++ bs.splitOnP p := by
  intro as
  induction as with
  | nil => intro bs; simp [List.splitOnP_cons, hsep]
  | cons a as ih =>
    intro bs
    simp only [List.cons_append, List.splitOnP_cons]
    by_cases hp : p a = true
    · simp [hp, ih]
    · rw [if_neg hp, if_neg hp, ih, modifyHead_append_left _ _ _ (List.splitOnP_ne_nil _ _)]

theorem splitOn_append_sep (sep : Char) (as bs : List Char) :
    (as ++ sep :: bs).splitOn sep = as.splitOn sep ++ bs.splitOn sep := by
  simp only [List.splitOn]
  exact splitOnP_append_sep (fun c => c == sep) sep (by simp) as bs

theorem removeDotSegments_id (segs : List (List Char))
    (h : ∀ s ∈ segs, s ≠ ['.'] ∧ s ≠ ['.', '.']) :
    removeDotSegments segs = segs := by
  unfold removeDotSegments
  have haux : ∀ ss : List (List Char), (∀ s ∈ ss, s ≠ ['.'] ∧ s ≠ ['.', '.']) →
      ∀ acc : List (List Char),
      ss.foldl (fun acc seg =>
        if seg == ['.'] then acc
        else if seg == ['.', '.'] then acc.dropLast
        else acc ++ [seg]) acc = acc ++ ss := by
    intro ss
    induction ss with
    | nil => intro _ acc; simp
    | cons s tail ih =>
      intro hss acc
      have hs := hss s (List.mem_cons_self s tail)
      simp only [List.foldl_cons]
      rw [if_neg (by simpa using hs.1), if_neg (by simpa using hs.2)]
      rw [ih (fun x hx => hss x (List.mem_cons_of_mem s hx)) (acc ++ [s])]
      simp
  simpa using haux segs h []

theorem upToLastSlash_append_slash (bd : List Char) :
    upToLastSlash (bd ++ ['/']) = bd ++ ['/'] := by
  unfold upToLastSlash
  rw [List.reverse_append]
  simp [List.dropWhile_cons]

/-- Unpack the base-URL invariants. -/
theorem goodBaseUrl_spec {u : Url} (h : goodBaseUrl u = true) :
    u.query = none ∧
    (∃ bd, u.path.data = bd ++ ['/']) ∧
    (∀ s ∈ u.path.data.splitOn '/', s ≠ ['.'] ∧ s ≠ ['.', '.']) := by
  unfold goodBaseUrl at h
  simp only [Bool.and_eq_true] at h
  obtain ⟨⟨h1, h2⟩, h3⟩ := h
  refine ⟨Option.isNone_iff_eq_none.mp h1, ?_, ?_⟩
  · cases hrev : u.path.data.reverse with
    | nil => rw [hrev] at h2; simp at h2
    | cons hd tl =>
      rw [hrev] at h2
      have hpath : u.path.data = tl.reverse ++ [hd] := by
        rw [← List.reverse_reverse u.path.data, hrev, List.reverse_cons]
      split at h2
      · rename_i heq
        obtain ⟨hhd, -⟩ := List.cons.inj heq
        exact ⟨tl.reverse, by rw [hpath, hhd]⟩
      · exact Bool.noConfusion h2
  · intro s hs
    have hx := List.all_eq_true.mp h3 s hs
    constructor <;> (intro hc; subst hc; simp at hx)

/-- Unpack the valid-relative-path invariants. -/
theorem validRelPath_spec {p : String} (h : validRelPath p = true) :
    starts_with p "/" = false ∧
    '?' ∉ p.data ∧
    (∀ rest, p.data ≠ '/' :: rest) ∧
    (∀ s ∈ p.data.splitOn '/', s ≠ ['.'] ∧ s ≠ ['.', '.']) := by
  unfold validRelPath at h
  simp only [Bool.and_eq_true] at h
  obtain ⟨⟨h1, h2⟩, h3⟩ := h
  have hsw : starts_with p "/" = false := by
    cases hx : starts_with p "/"
    · rfl
    · rw [hx] at h1; exact Bool.noConfusion h1
  refine ⟨hsw, ?_, ?_, ?_⟩
  · intro hq
    have hx := List.all_eq_true.mp h2 '?' hq
    exact absurd hx (by decide)
  · intro rest hrest
    have hx : starts_with p "/" = true := by
      unfold starts_with
      rw [hrest, show "/".data = ['/'] from rfl]
      simp [List.isPrefixOf]
    rw [hsw] at hx
    exact Bool.noConfusion hx
  · intro s hs
    have hx := List.all_eq_true.mp h3 s hs
    constructor <;> (intro hc; subst hc; simp at hx)

/-- What `Url::join` does on a good base and a valid relative path:
plain concatenation of the path, with the (absent) query of the
reference. -/
theorem join_of_valid (u : Url) (p : String)
    (hbd : ∃ bd, u.path.data = bd ++ ['/'])
    (hnd : ∀ s ∈ u.path.data.splitOn '/', s ≠ ['.'] ∧ s ≠ ['.', '.'])
    (hnq : '?' ∉ p.data)
    (hnslash : ∀ rest, p.data ≠ '/' :: rest)
    (hpd : ∀ s ∈ p.data.splitOn '/', s ≠ ['.'] ∧ s ≠ ['.', '.']) :
    u.join p = { u with path := String.mk (u.path.data ++ p.data), query := none } := by
  obtain ⟨bd, hbd⟩ := hbd
  unfold Url.join
  rw [splitQueryChars_of_no_question p.data hnq]
  simp only [Option.map_none']
  have hmem : ∀ s ∈ bd.splitOn '/' ++ p.data.splitOn '/', s ≠ ['.'] ∧ s ≠ ['.', '.'] := by
    intro s hs
    rcases List.mem_append.mp hs with hl | hr
    · apply hnd
      rw [hbd, show bd ++ ['/'] = bd ++ '/' :: ([] : List Char) by simp, splitOn_append_sep]
      exact List.mem_append_left _ hl
    · exact hpd s hr
  rw [hbd, upToLastSlash_append_slash,
    show (bd ++ ['/']) ++ p.data = bd ++ '/' :: p.data by simp,
    splitOn_append_sep]
  rw [removeDotSegments_id _ hmem, ← splitOn_append_sep, List.intercalate_splitOn]

/-- Claim C7: the URL `build_request` composes for a valid relative path
P and ordered query pairs Q is exactly the spec's formula — the endpoint
base URL joined with P, with the pairs of Q percent-encoded and appended
as the query string in input order. -/
theorem c7_url_composition (c : Client) (p : String)
    (q : Option (List (String × String)))
    (hbase : goodBaseUrl c.base_url = true)
    (hp : validRelPath p = true) :
    (c.composeUrl p q).render = specComposedUrl c.base_url p q := by
  obtain ⟨hq, hbd, hnd⟩ := goodBaseUrl_spec hbase
  obtain ⟨hsw, hnq, hnslash, hpd⟩ := validRelPath_spec hp
  have hjoin := join_of_valid c.base_url p hbd hnd hnq hnslash hpd
  unfold Client.composeUrl
  rw [hjoin]
  cases q with
  | none =>
    apply String.ext
    simp [Url.render, specComposedUrl, String.data_append, hq]
  | some pairs =>
    apply String.ext
    simp [Url.render, specComposedUrl, Url.extend_pairs, String.data_append, hq]

theorem c7_witness :
    goodBaseUrl (Client.new ⟨"https", some "tc.example.com", none, "/", none⟩
      "queue" "v1" none none).base_url = true ∧
    validRelPath "task/abc-123/status" = true ∧
    ((Client.new ⟨"https", some "tc.example.com", none, "/", none⟩
        "queue" "v1" none none).composeUrl "task/abc-123/status"
        (some [("limit", "2"), ("a b", "c/d")])).render =
      specComposedUrl
        (Client.new ⟨"https", some "tc.example.com", none, "/", none⟩
          "queue" "v1" none none).base_url
        "task/abc-123/status" (some [("limit", "2"), ("a b", "c/d")]) :=
  ⟨by decide, by decide,
   c7_url_composition
     (Client.new ⟨"https", some "tc.example.com", none, "/", none⟩ "queue" "v1" none none)
     "task/abc-123/status" (some [("limit", "2"), ("a b", "c/d")])
     (by decide) (by decide)⟩

end TcClient
